import Mathlib

/-!
Verification of the balance/transaction engine of the jacksclub repository.

The development shallowly embeds the TypeScript source:
  - `src/services/transaction.ts` (`transact`),
  - `src/services/balance.ts` (`getCurrentBalance`),
  - `src/db/config.ts` (key builders, `BALANCE_TTL_DAYS`),
  - `src/types/index.ts` (item shapes, error classes).

JavaScript numbers produced by `parseFloat` are modelled by `JSNum`
(NaN, the two infinities, or an exact rational); rounding of IEEE-754
doubles is deliberately outside the model.  DynamoDB is modelled by a
typed key-value `Store`: one partial map per item shape, addressed by
the same composite (PK, SK) keys the source builds.  The
`TransactWriteCommand` with its ConditionExpression on the balance put
is the function `atomicTransactWrite`; interleavings with concurrent
writers are modelled by letting `transactFrom` read from one store and
commit against another.  Clock samples (`new Date().toISOString()` and
`Date.now()`) are passed in as the parameters `timestamp` and `nowMs`.
-/

namespace JacksClub

/-- Numbers as JavaScript's `parseFloat` yields them: NaN, ±Infinity, or a
finite value, the finite case idealised as an exact rational. -/
inductive JSNum where
  | nan
  | posInf
  | negInf
  | num (q : ℚ)
deriving DecidableEq, Repr

/-- Model of JavaScript `isNaN` on a parsed number. -/
def JSNum.isNaN : JSNum → Bool
  | .nan => true
  | _ => false

/-- JavaScript unary minus on numbers. -/
def JSNum.neg : JSNum → JSNum
  | .nan => .nan
  | .posInf => .negInf
  | .negInf => .posInf
  | .num q => .num (-q)

/-- JavaScript `+` on numbers (finite arithmetic exact; `Infinity + (-Infinity) = NaN`). -/
def JSNum.add : JSNum → JSNum → JSNum
  | .nan, _ => .nan
  | _, .nan => .nan
  | .posInf, .negInf => .nan
  | .negInf, .posInf => .nan
  | .posInf, _ => .posInf
  | _, .posInf => .posInf
  | .negInf, _ => .negInf
  | _, .negInf => .negInf
  | .num a, .num b => .num (a + b)

/-- JavaScript `-` on numbers. -/
def JSNum.sub (a b : JSNum) : JSNum := a.add b.neg

/-- JavaScript `<` on numbers; any comparison with NaN is false. -/
def JSNum.lt : JSNum → JSNum → Bool
  | .nan, _ => false
  | _, .nan => false
  | .negInf, .negInf => false
  | .negInf, _ => true
  | _, .negInf => false
  | .posInf, _ => false
  | .num _, .posInf => true
  | .num a, .num b => decide (a < b)

/-- JavaScript `<=` on numbers; any comparison with NaN is false. -/
def JSNum.le : JSNum → JSNum → Bool
  | .nan, _ => false
  | _, .nan => false
  | .negInf, _ => true
  | _, .negInf => false
  | _, .posInf => true
  | .posInf, .num _ => false
  | .num a, .num b => decide (a ≤ b)

/-- The rational a finite `JSNum` denotes (0 for the non-finite cases). -/
def JSNum.toQ : JSNum → ℚ
  | .num q => q
  | _ => 0

/-- Value of a decimal digit character. -/
def toDigit (c : Char) : Nat := c.toNat - 48

/-- Value of a list of decimal digit characters. -/
def digitsVal (ds : List Char) : Nat :=
  ds.foldl (fun n c => 10 * n + toDigit c) 0

/-- Whether the character list starts with the literal `Infinity`, as
`parseFloat` recognises it. -/
def isInfinityChars : List Char → Bool
  | 'I' :: 'n' :: 'f' :: 'i' :: 'n' :: 'i' :: 't' :: 'y' :: _ => true
  | _ => false

/-- Exponent denoted by the characters after `e`/`E`; when no digits follow,
the exponent part is not part of the parsed prefix, which is the same as
exponent 0. -/
def expPart (r : List Char) : ℤ :=
  match r with
  | '+' :: r₂ => (digitsVal (r₂.takeWhile Char.isDigit) : ℤ)
  | '-' :: r₂ => -(digitsVal (r₂.takeWhile Char.isDigit) : ℤ)
  | _ => (digitsVal (r.takeWhile Char.isDigit) : ℤ)

/-- Discrete shape of the longest numeric prefix `parseFloat` reads from a
string: NaN when there is none, a signed Infinity, or sign with integer
digits, fraction digits and a decimal exponent. -/
inductive ParseShape where
  | nan
  | inf (neg : Bool)
  | fin (neg : Bool) (intDigits fracDigits : List Char) (ex : ℤ)
deriving DecidableEq, Repr

/-- Model of JavaScript `parseFloat`'s grammar: skip leading whitespace, an
optional sign, then either `Infinity`, or digits with an optional fraction
and an optional exponent; anything after the longest valid prefix is
ignored, and if there is no valid prefix the result is NaN. -/
def parseShape (s : String) : ParseShape :=
  let cs := s.data.dropWhile Char.isWhitespace
  let neg : Bool := match cs with
    | '-' :: _ => true
    | _ => false
  let cs₁ : List Char := match cs with
    | '+' :: rest => rest
    | '-' :: rest => rest
    | _ => cs
  if isInfinityChars cs₁ then ParseShape.inf neg
  else
    let ds := cs₁.takeWhile Char.isDigit
    let rest₁ := cs₁.dropWhile Char.isDigit
    let fs : List Char := match rest₁ with
      | '.' :: r => r.takeWhile Char.isDigit
      | _ => []
    let rest₂ : List Char := match rest₁ with
      | '.' :: r => r.dropWhile Char.isDigit
      | _ => rest₁
    if ds.isEmpty && fs.isEmpty then ParseShape.nan
    else
      let ex : ℤ := match rest₂ with
        | 'e' :: r => expPart r
        | 'E' :: r => expPart r
        | _ => 0
      ParseShape.fin neg ds fs ex

/-- Scaling factor `10 ^ ex` of a parsed exponent, as an exact rational. -/
def expFactor (e : ℤ) : ℚ :=
  if 0 ≤ e then ((10 ^ e.toNat : ℕ) : ℚ) else 1 / ((10 ^ (-e).toNat : ℕ) : ℚ)

/-- Numeric value of a parse shape. -/
def shapeVal : ParseShape → JSNum
  | ParseShape.nan => JSNum.nan
  | ParseShape.inf neg => if neg then JSNum.negInf else JSNum.posInf
  | ParseShape.fin neg ds fs ex =>
      JSNum.num ((if neg then (-1 : ℚ) else 1) *
        ((digitsVal ds : ℚ) + (digitsVal fs : ℚ) / ((10 ^ fs.length : ℕ) : ℚ)) * expFactor ex)

/-- Model of JavaScript `parseFloat`, with finite values exact. -/
def parseFloatJS (s : String) : JSNum := shapeVal (parseShape s)

/-- Model of JavaScript `String.prototype.trim` (drop whitespace at both ends). -/
def jsTrim (s : String) : String :=
  ⟨((s.data.dropWhile Char.isWhitespace).reverse.dropWhile Char.isWhitespace).reverse⟩

/-- Composite DynamoDB key, as built by `src/db/config.ts`. -/
structure DKey where
  PK : String
  SK : String
deriving DecidableEq, Repr

/-- `createUserBalanceKey` from `src/db/config.ts`. -/
def createUserBalanceKey (userId : String) : DKey :=
  ⟨"USER#" ++ userId, "BALANCE"⟩

/-- `createTransactionKey` from `src/db/config.ts`. -/
def createTransactionKey (userId timestamp idempotentKey : String) : DKey :=
  ⟨"USER#" ++ userId, "TXN#" ++ timestamp ++ "#" ++ idempotentKey⟩

/-- `createIdempotencyKey` from `src/db/config.ts`. -/
def createIdempotencyKey (idempotentKey : String) : DKey :=
  ⟨"TXN#" ++ idempotentKey, "RESULT"⟩

/-- `BALANCE_TTL_DAYS` from `src/db/config.ts`. -/
def BALANCE_TTL_DAYS : Nat := 30

/-- `BalanceItem` from `src/types/index.ts`. -/
structure BalanceItem where
  PK : String
  SK : String
  userId : String
  balance : JSNum
  version : Nat
  createdAt : String
  updatedAt : String
deriving DecidableEq, Repr

/-- `TransactionItem` (the ledger entry) from `src/types/index.ts`. -/
structure TransactionItem where
  PK : String
  SK : String
  userId : String
  idempotentKey : String
  amount : JSNum
  type : String
  status : String
  timestamp : String
  balanceAfter : JSNum
deriving DecidableEq, Repr

/-- `IdempotencyItem` from `src/types/index.ts`; `amount` keeps the original
request string. -/
structure IdempotencyItem where
  PK : String
  SK : String
  idempotentKey : String
  userId : String
  amount : String
  type : String
  newBalance : JSNum
  status : String
  timestamp : String
  ttl : Nat
deriving DecidableEq, Repr

/-- `TransactRequest` from `src/types/index.ts`; `type` is a plain string,
checked at runtime exactly as the source does. -/
structure TransactRequest where
  idempotentKey : String
  userId : String
  amount : String
  type : String
deriving DecidableEq, Repr

/-- `TransactionResponse` from `src/types/index.ts`. -/
structure TransactionResponse where
  success : Bool
  idempotentKey : String
  userId : String
  amount : String
  type : String
  newBalance : JSNum
  message : String
deriving DecidableEq, Repr

/-- `BalanceResponse` from `src/types/index.ts`. -/
structure BalanceResponse where
  userId : String
  balance : JSNum
deriving DecidableEq, Repr

/-- The error classes of `src/types/index.ts`: the base `BalanceError` with
its code, and its subclasses. -/
inductive BalanceError where
  | base (message code : String)
  | insufficientFunds (userId : String) (currentBalance requested : JSNum)
  | invalidAmount (amount : String)
  | raceCondition (userId : String)
deriving DecidableEq, Repr

/-- The `code` property of a thrown error. -/
def BalanceError.code : BalanceError → String
  | .base _ c => c
  | .insufficientFunds _ _ _ => "INSUFFICIENT_FUNDS"
  | .invalidAmount _ => "INVALID_AMOUNT"
  | .raceCondition _ => "RACE_CONDITION"

/-- The single DynamoDB table, split by the three disjoint key patterns the
source uses (`USER#…/BALANCE`, `USER#…/TXN#…`, `TXN#…/RESULT`), one typed
partial map per item shape. -/
structure Store where
  balances : DKey → Option BalanceItem
  transactions : DKey → Option TransactionItem
  idems : DKey → Option IdempotencyItem

/-- Store with no items. -/
def emptyStore : Store := ⟨fun _ => none, fun _ => none, fun _ => none⟩

/-- A DynamoDB `Put` of a balance item (overwrite by key). -/
def Store.putBalance (s : Store) (k : DKey) (b : BalanceItem) : Store :=
  { s with balances := fun k₂ => if k₂ = k then some b else s.balances k₂ }

/-- A DynamoDB `Put` of a ledger (transaction) item. -/
def Store.putTransaction (s : Store) (k : DKey) (t : TransactionItem) : Store :=
  { s with transactions := fun k₂ => if k₂ = k then some t else s.transactions k₂ }

/-- A DynamoDB `Put` of an idempotency item. -/
def Store.putIdem (s : Store) (k : DKey) (i : IdempotencyItem) : Store :=
  { s with idems := fun k₂ => if k₂ = k then some i else s.idems k₂ }

/-- `getCurrentBalance` from `src/services/balance.ts`: validate the id,
read the balance record, default to zero when absent.  The function takes
the store and returns only a result: it performs no writes. -/
def getCurrentBalance (s : Store) (userId : String) : Except BalanceError BalanceResponse :=
  if jsTrim userId = "" then
    .error (.base "Invalid userId: must be a non-empty string" "INVALID_USER_ID")
  else
    match s.balances (createUserBalanceKey userId) with
    | none => .ok ⟨userId, .num 0⟩
    | some b => .ok ⟨userId, b.balance⟩

/-- The input validation block at the top of `transact`
(`src/services/transaction.ts`), in source order; `none` means validation
passed. -/
def validateRequest (req : TransactRequest) : Option BalanceError :=
  if jsTrim req.idempotentKey = "" then
    some (.base "Invalid idempotentKey: must be a non-empty string" "INVALID_IDEMPOTENT_KEY")
  else if jsTrim req.userId = "" then
    some (.base "Invalid userId: must be a non-empty string" "INVALID_USER_ID")
  else if jsTrim req.amount = "" then
    some (.invalidAmount req.amount)
  else if (parseFloatJS req.amount).isNaN || (parseFloatJS req.amount).le (.num 0) then
    some (.invalidAmount req.amount)
  else if ¬(req.type = "credit" ∨ req.type = "debit") then
    some (.base "Invalid type: must be either credit or debit" "INVALID_TRANSACTION_TYPE")
  else
    none

/-- The replay response `transact` builds from a stored idempotency item. -/
def replayResponse (idempotentKey : String) (it : IdempotencyItem) : TransactionResponse :=
  { success := it.status == "completed",
    idempotentKey := idempotentKey,
    userId := it.userId,
    amount := it.amount,
    type := it.type,
    newBalance := it.newBalance,
    message := if it.status == "completed" then "Transaction already processed (idempotent)"
               else "Transaction previously failed" }

/-- The success response `transact` returns after a committed transaction. -/
def successResponse (req : TransactRequest) (newBalance : JSNum) : TransactionResponse :=
  { success := true,
    idempotentKey := req.idempotentKey,
    userId := req.userId,
    amount := req.amount,
    type := req.type,
    newBalance := newBalance,
    message := "Transaction completed successfully" }

/-- The `TransactWriteCommand` batch of `transact`: three puts, the balance
put guarded by `attribute_not_exists(PK) OR version = :currentVersion`.
`none` models `ConditionalCheckFailedException`: the whole batch is
rejected and no write applies. -/
def atomicTransactWrite (s : Store) (balanceKey : DKey) (bItem : BalanceItem)
    (txnKey : DKey) (tItem : TransactionItem) (idemKey : DKey) (iItem : IdempotencyItem)
    (currentVersion : Nat) : Option Store :=
  let condOk : Bool :=
    match s.balances balanceKey with
    | none => true
    | some existing => existing.version == currentVersion
  if condOk then
    some (((s.putBalance balanceKey bItem).putTransaction txnKey tItem).putIdem idemKey iItem)
  else
    none

/-- `currentVersion` as `transact` derives it from the balance read: the
stored version, or 0 when no record exists. -/
def versionOf : Option BalanceItem → Nat
  | some b => b.version
  | none => 0

/-- `currentBalance` as `transact` derives it from the balance read: the
stored balance, or 0 when no record exists. -/
def balanceOf : Option BalanceItem → JSNum
  | some b => b.balance
  | none => .num 0

/-- `balanceResult.Item?.createdAt || timestamp` from the source (`||` takes
the timestamp when the stored string is falsy, i.e. empty). -/
def createdAtOf (b? : Option BalanceItem) (timestamp : String) : String :=
  match b? with
  | some b => if b.createdAt = "" then timestamp else b.createdAt
  | none => timestamp

/-- Steps 4–5 of `transact`: build the three items from the balance read and
the computed new balance, then run the atomic batch against the
commit-time store; a conditional-check failure becomes `RaceConditionError`. -/
def transactCommitPhase (sCommit : Store) (req : TransactRequest) (amount newBalance : JSNum)
    (balItem? : Option BalanceItem) (timestamp : String) (nowMs : Nat) :
    Except BalanceError (Store × TransactionResponse) :=
  let currentVersion : Nat := versionOf balItem?
  let createdAt : String := createdAtOf balItem? timestamp
  let balanceKey := createUserBalanceKey req.userId
  let txnKey := createTransactionKey req.userId timestamp req.idempotentKey
  let idemKey := createIdempotencyKey req.idempotentKey
  let bItem : BalanceItem :=
    { PK := balanceKey.PK, SK := balanceKey.SK, userId := req.userId,
      balance := newBalance, version := currentVersion + 1,
      createdAt := createdAt, updatedAt := timestamp }
  let tItem : TransactionItem :=
    { PK := txnKey.PK, SK := txnKey.SK, userId := req.userId,
      idempotentKey := req.idempotentKey, amount := amount, type := req.type,
      status := "completed", timestamp := timestamp, balanceAfter := newBalance }
  let iItem : IdempotencyItem :=
    { PK := idemKey.PK, SK := idemKey.SK, idempotentKey := req.idempotentKey,
      userId := req.userId, amount := req.amount, type := req.type,
      newBalance := newBalance, status := "completed", timestamp := timestamp,
      ttl := nowMs / 1000 + BALANCE_TTL_DAYS * 24 * 60 * 60 }
  match atomicTransactWrite sCommit balanceKey bItem txnKey tItem idemKey iItem currentVersion with
  | some s₁ => .ok (s₁, successResponse req newBalance)
  | none => .error (.raceCondition req.userId)

/-- The body of `transact`'s `try` block (steps 1–5): idempotency lookup and
replay, balance read, new-balance computation with the insufficient-funds
check on the debit branch, then the commit phase.  Reads go against
`sRead`; the atomic batch runs against `sCommit`, so a concurrent writer
between read and commit is modelled by `sRead ≠ sCommit`. -/
def transactTry (sRead sCommit : Store) (req : TransactRequest) (timestamp : String)
    (nowMs : Nat) : Except BalanceError (Store × TransactionResponse) :=
  let amount := parseFloatJS req.amount
  let idemKey := createIdempotencyKey req.idempotentKey
  match sRead.idems idemKey with
  | some idempotencyItem => .ok (sCommit, replayResponse req.idempotentKey idempotencyItem)
  | none =>
    let balItem? := sRead.balances (createUserBalanceKey req.userId)
    let currentBalance : JSNum := balanceOf balItem?
    if req.type = "credit" then
      transactCommitPhase sCommit req amount (currentBalance.add amount) balItem? timestamp nowMs
    else
      let newBalance := currentBalance.sub amount
      if newBalance.lt (.num 0) then
        .error (.insufficientFunds req.userId currentBalance amount)
      else
        transactCommitPhase sCommit req amount newBalance balItem? timestamp nowMs

/-- The failed-transaction idempotency record written by `transact`'s catch
handler. -/
def failedIdempotencyItem (req : TransactRequest) (timestamp : String) (nowMs : Nat) :
    IdempotencyItem :=
  { PK := (createIdempotencyKey req.idempotentKey).PK,
    SK := (createIdempotencyKey req.idempotentKey).SK,
    idempotentKey := req.idempotentKey,
    userId := req.userId, amount := req.amount, type := req.type,
    newBalance := .num 0, status := "failed", timestamp := timestamp,
    ttl := nowMs / 1000 + BALANCE_TTL_DAYS * 24 * 60 * 60 }

/-- The catch handler's guard: record a failed-transaction idempotency item
unless the error's code is on the exclusion list.  The source excludes the
code `INVALID_AMOUNT_FORMAT`, which no thrown error carries — the real
`InvalidAmountError` code is `INVALID_AMOUNT` — but since all validation
errors are thrown before the `try` block, the mismatch is unobservable. -/
def shouldRecordFailure (e : BalanceError) : Bool :=
  !(e.code == "INVALID_IDEMPOTENT_KEY") && !(e.code == "INVALID_USER_ID") &&
    !(e.code == "INVALID_AMOUNT_FORMAT") && !(e.code == "INVALID_TRANSACTION_TYPE")

/-- `transact` from `src/services/transaction.ts`, with the read store and
the commit store separated to expose interleavings.  Validation errors are
thrown before the `try`, so they leave the store untouched.  Errors from
the body pass through the catch handler, which best-effort writes the
failed idempotency record — `recordOk = false` models that write itself
failing, which the source swallows — and then rethrows the original
error.  The pair returned is (result, final store). -/
def transactFrom (sRead sCommit : Store) (req : TransactRequest) (timestamp : String)
    (nowMs : Nat) (recordOk : Bool) : Except BalanceError TransactionResponse × Store :=
  match validateRequest req with
  | some e => (.error e, sCommit)
  | none =>
    match transactTry sRead sCommit req timestamp nowMs with
    | .ok (s₁, resp) => (.ok resp, s₁)
    | .error e =>
      let s₁ :=
        if shouldRecordFailure e && recordOk then
          sCommit.putIdem (createIdempotencyKey req.idempotentKey)
            (failedIdempotencyItem req timestamp nowMs)
        else sCommit
      (.error e, s₁)

/-- `transact` run sequentially: the commit sees exactly the store that was
read (no concurrent writer). -/
def transact (s : Store) (req : TransactRequest) (timestamp : String) (nowMs : Nat)
    (recordOk : Bool) : Except BalanceError TransactionResponse × Store :=
  transactFrom s s req timestamp nowMs recordOk

/-- The balance item stored for an account. -/
def readBalanceItem (s : Store) (userId : String) : Option BalanceItem :=
  s.balances (createUserBalanceKey userId)

/-- The balance `transact` reads for an account: the stored balance, or 0
when no record exists. -/
def readBalance (s : Store) (userId : String) : JSNum :=
  balanceOf (readBalanceItem s userId)

/-- The version `transact` reads for an account: the stored version, or 0
when no record exists. -/
def readVersion (s : Store) (userId : String) : Nat :=
  versionOf (readBalanceItem s userId)

/-- Sequential execution of a list of requests, threading the store and
collecting each call's result. -/
def runSeq (timestamp : String) (nowMs : Nat) (recordOk : Bool) :
    Store → List TransactRequest → Store × List (Except BalanceError TransactionResponse)
  | s, [] => (s, [])
  | s, req :: rest =>
    let r := transact s req timestamp nowMs recordOk
    let rest' := runSeq timestamp nowMs recordOk r.2 rest
    (rest'.1, r.1 :: rest'.2)

/-- Net signed amount of the operations that reported success: credits
count positively, debits negatively, failed operations not at all. -/
def netChange : List TransactRequest → List (Except BalanceError TransactionResponse) → ℚ
  | [], _ => 0
  | _ :: _, [] => 0
  | req :: reqs, res :: results =>
    (match res with
     | .ok _ => if req.type = "credit" then (parseFloatJS req.amount).toQ
                else -(parseFloatJS req.amount).toQ
     | .error _ => 0) + netChange reqs results

/-- All idempotency tokens of the list are fresh in the store and pairwise
distinct. -/
def freshTokens (s : Store) : List TransactRequest → Prop
  | [] => True
  | req :: rest =>
    s.idems (createIdempotencyKey req.idempotentKey) = none ∧
    (∀ r ∈ rest, r.idempotentKey ≠ req.idempotentKey) ∧ freshTokens s rest

/-- Requests all pass validation, all target the account `uid`, and all
carry finite (rational) amounts. -/
def validSeqFor (uid : String) (reqs : List TransactRequest) : Prop :=
  ∀ r ∈ reqs, validateRequest r = none ∧ r.userId = uid ∧ ∃ q : ℚ, parseFloatJS r.amount = .num q

/-! Basic computation lemmas. -/

lemma JSNum.num_add (x y : ℚ) : (JSNum.num x).add (JSNum.num y) = JSNum.num (x + y) := rfl

lemma JSNum.num_sub (x y : ℚ) : (JSNum.num x).sub (JSNum.num y) = JSNum.num (x - y) := by
  simp [JSNum.sub, JSNum.add, JSNum.neg, sub_eq_add_neg]

lemma JSNum.num_lt_zero (x : ℚ) : (JSNum.num x).lt (JSNum.num 0) = decide (x < 0) := rfl

lemma validateRequest_none_iff (req : TransactRequest) :
    validateRequest req = none ↔
      jsTrim req.idempotentKey ≠ "" ∧ jsTrim req.userId ≠ "" ∧ jsTrim req.amount ≠ "" ∧
      (parseFloatJS req.amount).isNaN = false ∧
      (parseFloatJS req.amount).le (JSNum.num 0) = false ∧
      (req.type = "credit" ∨ req.type = "debit") := by
  unfold validateRequest
  split_ifs with h1 h2 h3 h4 h5
  · simp_all
  · simp_all
  · simp_all
  · constructor
    · intro h
      simp at h
    · rintro ⟨-, -, -, hnan, hle, -⟩
      rw [hnan, hle] at h4
      simp at h4
  · simp_all
  · simp_all

/-! Store-level characterizations of the commit path. -/

lemma atomicTransactWrite_of_version_eq (s : Store) (bk : DKey) (bItem : BalanceItem)
    (tk : DKey) (tItem : TransactionItem) (ik : DKey) (iItem : IdempotencyItem)
    (cv : Nat) (hcv : versionOf (s.balances bk) = cv) :
    atomicTransactWrite s bk bItem tk tItem ik iItem cv =
      some (((s.putBalance bk bItem).putTransaction tk tItem).putIdem ik iItem) := by
  unfold atomicTransactWrite
  cases h : s.balances bk with
  | none => simp
  | some b =>
    rw [h] at hcv
    simp only [versionOf] at hcv
    simp [hcv]

lemma atomicTransactWrite_of_version_ne (s : Store) (bk : DKey) (bItem : BalanceItem)
    (tk : DKey) (tItem : TransactionItem) (ik : DKey) (iItem : IdempotencyItem)
    (cv : Nat) (b₀ : BalanceItem) (hb : s.balances bk = some b₀) (hne : b₀.version ≠ cv) :
    atomicTransactWrite s bk bItem tk tItem ik iItem cv = none := by
  unfold atomicTransactWrite
  simp [hb, hne]

lemma commitPhase_seq (s : Store) (req : TransactRequest) (amount nb : JSNum)
    (ts : String) (now : Nat) :
    ∃ s₁,
      transactCommitPhase s req amount nb (readBalanceItem s req.userId) ts now =
        .ok (s₁, successResponse req nb) ∧
      (s₁.balances (createUserBalanceKey req.userId)).isSome = true ∧
      balanceOf (s₁.balances (createUserBalanceKey req.userId)) = nb ∧
      versionOf (s₁.balances (createUserBalanceKey req.userId)) = readVersion s req.userId + 1 ∧
      (∀ k, k ≠ createUserBalanceKey req.userId → s₁.balances k = s.balances k) ∧
      (∀ k, s₁.transactions k = s.transactions k ∨
        k = createTransactionKey req.userId ts req.idempotentKey) ∧
      (∀ k, k ≠ createIdempotencyKey req.idempotentKey → s₁.idems k = s.idems k) := by
  unfold transactCommitPhase
  dsimp only
  rw [atomicTransactWrite_of_version_eq s (createUserBalanceKey req.userId) _ _ _ _ _
      (versionOf (readBalanceItem s req.userId)) rfl]
  refine ⟨_, rfl, ?_, ?_, ?_, ?_, ?_, ?_⟩
  · simp [Store.putIdem, Store.putTransaction, Store.putBalance]
  · simp [Store.putIdem, Store.putTransaction, Store.putBalance, balanceOf]
  · simp [Store.putIdem, Store.putTransaction, Store.putBalance, versionOf, readVersion]
  · intro k hk
    simp [Store.putIdem, Store.putTransaction, Store.putBalance, hk]
  · intro k
    by_cases hk : k = createTransactionKey req.userId ts req.idempotentKey
    · exact Or.inr hk
    · exact Or.inl (by simp [Store.putIdem, Store.putTransaction, Store.putBalance, hk])
  · intro k hk
    simp [Store.putIdem, Store.putTransaction, Store.putBalance, hk]

lemma commitPhase_race (sC : Store) (req : TransactRequest) (amount nb : JSNum)
    (balItem? : Option BalanceItem) (ts : String) (now : Nat) (b₀ : BalanceItem)
    (hb : sC.balances (createUserBalanceKey req.userId) = some b₀)
    (hne : b₀.version ≠ versionOf balItem?) :
    transactCommitPhase sC req amount nb balItem? ts now =
      .error (.raceCondition req.userId) := by
  unfold transactCommitPhase
  dsimp only
  rw [atomicTransactWrite_of_version_ne _ _ _ _ _ _ _ _ b₀ hb hne]

lemma transactFrom_replay (sR sC : Store) (req : TransactRequest) (ts : String) (now : Nat)
    (ro : Bool) (item : IdempotencyItem)
    (hv : validateRequest req = none)
    (hit : sR.idems (createIdempotencyKey req.idempotentKey) = some item) :
    transactFrom sR sC req ts now ro = (.ok (replayResponse req.idempotentKey item), sC) := by
  unfold transactFrom
  rw [hv]
  unfold transactTry
  dsimp only
  rw [hit]

/-- The new balance the engine computes for a validated request. -/
def newBalanceFor (ty : String) (cb a : ℚ) : ℚ := if ty = "credit" then cb + a else cb - a

lemma transact_success (s : Store) (req : TransactRequest) (ts : String) (now : Nat)
    (ro : Bool) (a cb : ℚ)
    (hv : validateRequest req = none)
    (hfresh : s.idems (createIdempotencyKey req.idempotentKey) = none)
    (ha : parseFloatJS req.amount = .num a)
    (hb : readBalance s req.userId = .num cb)
    (hpos : req.type = "credit" ∨ ¬(cb - a < 0)) :
    ∃ s₁,
      transact s req ts now ro =
        (.ok (successResponse req (.num (newBalanceFor req.type cb a))), s₁) ∧
      readBalance s₁ req.userId = .num (newBalanceFor req.type cb a) ∧
      (readBalanceItem s₁ req.userId).isSome = true ∧
      versionOf (readBalanceItem s₁ req.userId) = readVersion s req.userId + 1 ∧
      (∀ k, k ≠ createUserBalanceKey req.userId → s₁.balances k = s.balances k) ∧
      (∀ k, k ≠ createIdempotencyKey req.idempotentKey → s₁.idems k = s.idems k) := by
  have hb' : balanceOf (s.balances (createUserBalanceKey req.userId)) = .num cb := hb
  have htype := ((validateRequest_none_iff req).mp hv).2.2.2.2.2
  unfold transact transactFrom
  rw [hv]
  unfold transactTry
  dsimp only
  rw [hfresh]
  rcases htype with hc | hd
  · rw [if_pos hc, hb', ha, JSNum.num_add]
    obtain ⟨s₁, hrun, hsome, hbal, hver, hfb, hft, hfi⟩ :=
      commitPhase_seq s req (JSNum.num a) (.num (cb + a)) ts now
    rw [show s.balances (createUserBalanceKey req.userId) = readBalanceItem s req.userId from rfl,
      hrun]
    refine ⟨s₁, ?_, ?_, hsome, hver, hfb, hfi⟩
    · simp [newBalanceFor, hc]
    · simp [readBalance, readBalanceItem, newBalanceFor, hc] at hbal ⊢
      exact hbal
  · have hnc : ¬(req.type = "credit") := by
      rw [hd]
      decide
    rw [if_neg hnc, hb', ha, JSNum.num_sub, JSNum.num_lt_zero]
    have hnneg : ¬(cb - a < 0) := by
      rcases hpos with h | h
      · exact absurd h hnc
      · exact h
    rw [decide_eq_false hnneg]
    simp only [Bool.false_eq_true, if_false]
    obtain ⟨s₁, hrun, hsome, hbal, hver, hfb, hft, hfi⟩ :=
      commitPhase_seq s req (JSNum.num a) (.num (cb - a)) ts now
    rw [show s.balances (createUserBalanceKey req.userId) = readBalanceItem s req.userId from rfl,
      hrun]
    refine ⟨s₁, ?_, ?_, hsome, hver, hfb, hfi⟩
    · simp [newBalanceFor, hnc]
    · simp [readBalance, readBalanceItem, newBalanceFor, hnc] at hbal ⊢
      exact hbal

lemma shouldRecordFailure_insufficient (u : String) (cb a : JSNum) :
    shouldRecordFailure (.insufficientFunds u cb a) = true := rfl

lemma shouldRecordFailure_race (u : String) :
    shouldRecordFailure (.raceCondition u) = true := rfl

lemma Store.putIdem_balances (s : Store) (k : DKey) (i : IdempotencyItem) :
    (s.putIdem k i).balances = s.balances := rfl

lemma Store.putIdem_transactions (s : Store) (k : DKey) (i : IdempotencyItem) :
    (s.putIdem k i).transactions = s.transactions := rfl

lemma transact_insufficient (s : Store) (req : TransactRequest) (ts : String) (now : Nat)
    (ro : Bool) (a cb : ℚ)
    (hv : validateRequest req = none)
    (hfresh : s.idems (createIdempotencyKey req.idempotentKey) = none)
    (ha : parseFloatJS req.amount = .num a)
    (hb : readBalance s req.userId = .num cb)
    (hdebit : req.type = "debit")
    (hneg : cb - a < 0) :
    transact s req ts now ro =
      (.error (.insufficientFunds req.userId (.num cb) (.num a)),
       if ro then s.putIdem (createIdempotencyKey req.idempotentKey)
         (failedIdempotencyItem req ts now) else s) := by
  have hb' : balanceOf (s.balances (createUserBalanceKey req.userId)) = .num cb := hb
  have hnc : ¬(req.type = "credit") := by
    rw [hdebit]
    decide
  unfold transact transactFrom
  rw [hv]
  unfold transactTry
  dsimp only
  rw [hfresh, if_neg hnc, hb', ha, JSNum.num_sub, JSNum.num_lt_zero, decide_eq_true hneg]
  simp only [if_true, shouldRecordFailure_insufficient, Bool.true_and]

lemma commitPhase_error_shape (sC : Store) (req : TransactRequest) (amount nb : JSNum)
    (balItem? : Option BalanceItem) (ts : String) (now : Nat) (e : BalanceError)
    (he : transactCommitPhase sC req amount nb balItem? ts now = .error e) :
    e = .raceCondition req.userId := by
  unfold transactCommitPhase at he
  dsimp only at he
  split at he
  · simp at he
  · injection he with h
    exact h.symm

lemma transactTry_error_shape (sR sC : Store) (req : TransactRequest) (ts : String)
    (now : Nat) (e : BalanceError)
    (he : transactTry sR sC req ts now = .error e) :
    shouldRecordFailure e = true := by
  unfold transactTry at he
  dsimp only at he
  cases hidem : sR.idems (createIdempotencyKey req.idempotentKey) with
  | some it =>
    rw [hidem] at he
    simp at he
  | none =>
    rw [hidem] at he
    by_cases hc : req.type = "credit"
    · rw [if_pos hc] at he
      rw [commitPhase_error_shape _ _ _ _ _ _ _ _ he]
      exact shouldRecordFailure_race req.userId
    · rw [if_neg hc] at he
      by_cases hlt :
          ((balanceOf (sR.balances (createUserBalanceKey req.userId))).sub
            (parseFloatJS req.amount)).lt (JSNum.num 0) = true
      · rw [if_pos hlt] at he
        injection he with h
        rw [← h]
        exact shouldRecordFailure_insufficient _ _ _
      · rw [if_neg hlt] at he
        rw [commitPhase_error_shape _ _ _ _ _ _ _ _ he]
        exact shouldRecordFailure_race req.userId

lemma transactFrom_race (sR sC : Store) (req : TransactRequest) (ts : String) (now : Nat)
    (ro : Bool) (b₀ : BalanceItem)
    (hv : validateRequest req = none)
    (hfresh : sR.idems (createIdempotencyKey req.idempotentKey) = none)
    (hb : sC.balances (createUserBalanceKey req.userId) = some b₀)
    (hne : b₀.version ≠ readVersion sR req.userId)
    (hreach : req.type = "credit" ∨
      ((readBalance sR req.userId).sub (parseFloatJS req.amount)).lt (JSNum.num 0) = false) :
    transactFrom sR sC req ts now ro =
      (.error (.raceCondition req.userId),
       if ro then sC.putIdem (createIdempotencyKey req.idempotentKey)
         (failedIdempotencyItem req ts now) else sC) := by
  have htype := ((validateRequest_none_iff req).mp hv).2.2.2.2.2
  have hrace : ∀ amt nb, transactCommitPhase sC req amt nb
      (sR.balances (createUserBalanceKey req.userId)) ts now =
      .error (.raceCondition req.userId) := fun amt nb =>
    commitPhase_race sC req amt nb _ ts now b₀ hb hne
  unfold transactFrom
  rw [hv]
  unfold transactTry
  dsimp only
  rw [hfresh]
  rcases htype with hc | hd
  · rw [if_pos hc, hrace]
    simp only [shouldRecordFailure_race, Bool.true_and]
  · have hnc : ¬(req.type = "credit") := by
      rw [hd]
      decide
    have hlt : ((balanceOf (sR.balances (createUserBalanceKey req.userId))).sub
        (parseFloatJS req.amount)).lt (JSNum.num 0) = false := by
      rcases hreach with h | h
      · exact absurd h hnc
      · exact h
    rw [if_neg hnc, hlt]
    simp only [Bool.false_eq_true, if_false]
    rw [hrace]
    simp only [shouldRecordFailure_race, Bool.true_and]

lemma string_append_left_cancel {p s t : String} (h : p ++ s = p ++ t) : s = t := by
  have hd := congrArg String.data h
  simp only [String.data_append] at hd
  exact String.ext (List.append_cancel_left hd)

lemma createUserBalanceKey_inj {u₁ u₂ : String}
    (h : createUserBalanceKey u₁ = createUserBalanceKey u₂) : u₁ = u₂ := by
  unfold createUserBalanceKey at h
  rw [DKey.mk.injEq] at h
  exact string_append_left_cancel h.1

lemma atomicTransactWrite_some (s : Store) (bk : DKey) (bItem : BalanceItem)
    (tk : DKey) (tItem : TransactionItem) (ik : DKey) (iItem : IdempotencyItem)
    (cv : Nat) (s₁ : Store)
    (h : atomicTransactWrite s bk bItem tk tItem ik iItem cv = some s₁) :
    (s.balances bk = none ∨ ∃ b₀, s.balances bk = some b₀ ∧ b₀.version = cv) ∧
    s₁.balances bk = some bItem := by
  unfold atomicTransactWrite at h
  cases hb : s.balances bk with
  | none =>
    rw [hb] at h
    simp only [if_true] at h
    refine ⟨Or.inl rfl, ?_⟩
    rw [← Option.some_inj.mp (by exact h.symm ▸ rfl : some s₁ = some s₁)]
    injection h with h₁
    rw [← h₁]
    simp [Store.putIdem, Store.putTransaction, Store.putBalance]
  | some b₀ =>
    rw [hb] at h
    by_cases hv : b₀.version == cv
    · rw [if_pos hv] at h
      injection h with h₁
      refine ⟨Or.inr ⟨b₀, rfl, by simpa using hv⟩, ?_⟩
      rw [← h₁]
      simp [Store.putIdem, Store.putTransaction, Store.putBalance]
    · rw [if_neg hv] at h
      cases h

lemma commitPhase_ok_shape (sC : Store) (req : TransactRequest) (amount nb : JSNum)
    (balItem? : Option BalanceItem) (ts : String) (now : Nat) (s₁ : Store)
    (resp : TransactionResponse)
    (h : transactCommitPhase sC req amount nb balItem? ts now = .ok (s₁, resp)) :
    ∃ b₁,
      (sC.balances (createUserBalanceKey req.userId) = none ∨
        ∃ b₀, sC.balances (createUserBalanceKey req.userId) = some b₀ ∧
          b₀.version = versionOf balItem?) ∧
      s₁.balances (createUserBalanceKey req.userId) = some b₁ ∧
      b₁.version = versionOf balItem? + 1 := by
  unfold transactCommitPhase at h
  dsimp only at h
  split at h
  next s₂ heq =>
    injection h with hp
    rw [Prod.mk.injEq] at hp
    obtain ⟨hs, -⟩ := hp
    obtain ⟨hcond, hbal⟩ := atomicTransactWrite_some _ _ _ _ _ _ _ _ _ heq
    subst hs
    exact ⟨_, hcond, hbal, rfl⟩
  next heq =>
    cases h

lemma transactTry_ok_shape (sR sC : Store) (req : TransactRequest) (ts : String)
    (now : Nat) (s₁ : Store) (resp : TransactionResponse)
    (hfresh : sR.idems (createIdempotencyKey req.idempotentKey) = none)
    (h : transactTry sR sC req ts now = .ok (s₁, resp)) :
    ∃ b₁,
      (sC.balances (createUserBalanceKey req.userId) = none ∨
        ∃ b₀, sC.balances (createUserBalanceKey req.userId) = some b₀ ∧
          b₀.version = readVersion sR req.userId) ∧
      s₁.balances (createUserBalanceKey req.userId) = some b₁ ∧
      b₁.version = readVersion sR req.userId + 1 := by
  unfold transactTry at h
  dsimp only at h
  rw [hfresh] at h
  by_cases hc : req.type = "credit"
  · rw [if_pos hc] at h
    exact commitPhase_ok_shape _ _ _ _ _ _ _ _ _ h
  · rw [if_neg hc] at h
    by_cases hlt :
        ((balanceOf (sR.balances (createUserBalanceKey req.userId))).sub
          (parseFloatJS req.amount)).lt (JSNum.num 0) = true
    · rw [if_pos hlt] at h
      cases h
    · rw [if_neg hlt] at h
      exact commitPhase_ok_shape _ _ _ _ _ _ _ _ _ h

lemma transactFrom_ok_shape (sR sC : Store) (req : TransactRequest) (ts : String)
    (now : Nat) (ro : Bool) (resp : TransactionResponse) (s₁ : Store)
    (hv : validateRequest req = none)
    (hfresh : sR.idems (createIdempotencyKey req.idempotentKey) = none)
    (hok : transactFrom sR sC req ts now ro = (.ok resp, s₁)) :
    ∃ b₁,
      (sC.balances (createUserBalanceKey req.userId) = none ∨
        ∃ b₀, sC.balances (createUserBalanceKey req.userId) = some b₀ ∧
          b₀.version = readVersion sR req.userId) ∧
      s₁.balances (createUserBalanceKey req.userId) = some b₁ ∧
      b₁.version = readVersion sR req.userId + 1 := by
  unfold transactFrom at hok
  rw [hv] at hok
  cases htry : transactTry sR sC req ts now with
  | ok p =>
    obtain ⟨s₂, resp₂⟩ := p
    rw [htry] at hok
    dsimp only at hok
    rw [Prod.mk.injEq] at hok
    obtain ⟨hr, hs⟩ := hok
    injection hr with hr
    rw [hr, hs] at htry
    exact transactTry_ok_shape _ _ _ _ _ _ _ hfresh htry
  | error e =>
    rw [htry] at hok
    dsimp only at hok
    rw [Prod.mk.injEq] at hok
    obtain ⟨hbad, -⟩ := hok
    cases hbad

lemma validateRequest_none_of_parts (req : TransactRequest) (q : ℚ)
    (hk : jsTrim req.idempotentKey ≠ "") (hu : jsTrim req.userId ≠ "")
    (hs : jsTrim req.amount ≠ "")
    (hq : parseFloatJS req.amount = .num q) (hpos : 0 < q)
    (ht : req.type = "credit" ∨ req.type = "debit") :
    validateRequest req = none := by
  rw [validateRequest_none_iff]
  refine ⟨hk, hu, hs, ?_, ?_, ht⟩
  · rw [hq]
    rfl
  · rw [hq]
    simp only [JSNum.le]
    exact decide_eq_false (not_le.mpr hpos)

lemma parseFloatJS_fin (s : String) (neg : Bool) (ds fs : List Char) (ex : ℤ) (q : ℚ)
    (hshape : parseShape s = ParseShape.fin neg ds fs ex)
    (hval : (if neg then (-1 : ℚ) else 1) *
      ((digitsVal ds : ℚ) + (digitsVal fs : ℚ) / ((10 ^ fs.length : ℕ) : ℚ)) *
      expFactor ex = q) :
    parseFloatJS s = .num q := by
  rw [parseFloatJS, hshape]
  simp only [shapeVal, hval]

lemma parseFloat_25 : parseFloatJS "25" = .num 25 := by
  refine parseFloatJS_fin "25" false [ '2', '5'] [] 0 25 (by decide) ?_
  have h1 : digitsVal [ '2', '5'] = 25 := by decide
  have h2 : digitsVal ([] : List Char) = 0 := by decide
  rw [h1, h2]
  norm_num [expFactor]

/-! Concrete fixtures used by the example theorems. -/

/-- A stored completed idempotency outcome for token `tok1`. -/
def storedOutcome : IdempotencyItem :=
  { PK := "TXN#tok1", SK := "RESULT", idempotentKey := "tok1", userId := "u1",
    amount := "25", type := "credit", newBalance := JSNum.num 125, status := "completed",
    timestamp := "t0", ttl := 0 }

/-- A store holding only the stored outcome for token `tok1`. -/
def replayStore : Store := emptyStore.putIdem (createIdempotencyKey "tok1") storedOutcome

/-- A balance record of 10 at version 1 for account `u1`. -/
def smallBalance : BalanceItem :=
  { PK := "USER#u1", SK := "BALANCE", userId := "u1", balance := JSNum.num 10, version := 1,
    createdAt := "t0", updatedAt := "t0" }

/-- A store holding only the balance record for `u1`. -/
def smallStore : Store := emptyStore.putBalance (createUserBalanceKey "u1") smallBalance

/-! The claims. -/

/-- Claim C1: for every execute request (passing input validation) whose idempotency token
already has an IdempotencyRecord in the store, `transact` returns a TransactionResult
reconstructed from that record — success equals (stored status == completed), echoing the
stored account, amount, direction and resulting balance, with a replay message
distinguishing prior completion from prior failure — and performs no store writes: the
returned store is exactly the input store, so the balance is unchanged. -/
theorem replay_returns_stored_outcome_without_writes
    (s : Store) (req : TransactRequest) (ts : String) (now : Nat) (ro : Bool)
    (item : IdempotencyItem)
    (hv : validateRequest req = none)
    (hit : s.idems (createIdempotencyKey req.idempotentKey) = some item) :
    transact s req ts now ro =
      (.ok { success := item.status == "completed",
             idempotentKey := req.idempotentKey,
             userId := item.userId,
             amount := item.amount,
             type := item.type,
             newBalance := item.newBalance,
             message := if item.status == "completed"
                        then "Transaction already processed (idempotent)"
                        else "Transaction previously failed" }, s) :=
  transactFrom_replay s s req ts now ro item hv hit

/-- Concrete replay: a completed record for token `tok1` is echoed verbatim and the store
is returned untouched. -/
theorem replay_returns_stored_outcome_without_writes_witness :
    validateRequest ⟨"tok1", "u1", "25", "credit"⟩ = none ∧
    replayStore.idems (createIdempotencyKey "tok1") = some storedOutcome ∧
    transact replayStore ⟨"tok1", "u1", "25", "credit"⟩ "t1" 5 true =
      (.ok { success := true, idempotentKey := "tok1", userId := "u1", amount := "25",
             type := "credit", newBalance := JSNum.num 125,
             message := "Transaction already processed (idempotent)" }, replayStore) := by
  have hv : validateRequest ⟨"tok1", "u1", "25", "credit"⟩ = none :=
    validateRequest_none_of_parts _ 25 (by decide) (by decide) (by decide) parseFloat_25
      (by norm_num) (Or.inl rfl)
  have hit : replayStore.idems (createIdempotencyKey "tok1") = some storedOutcome := by
    simp [replayStore, Store.putIdem]
  refine ⟨hv, hit, ?_⟩
  rw [replay_returns_stored_outcome_without_writes replayStore _ "t1" 5 true storedOutcome hv hit]
  rfl

/-- Claim C2: every successful, non-replayed execute writes the account's balance record
with version exactly (version read) + 1 — the read version being 0 for an unseen account —
and the committed batch was conditioned on the commit-time store holding either no balance
record for the account or one still at the read version; consequently no second
non-replayed execute that observed the same version can commit successfully against the
resulting store. -/
theorem successful_commit_bumps_version_conditionally
    (sR sC : Store) (req : TransactRequest) (ts : String) (now : Nat) (ro : Bool)
    (resp : TransactionResponse) (s₁ : Store)
    (hv : validateRequest req = none)
    (hfresh : sR.idems (createIdempotencyKey req.idempotentKey) = none)
    (hok : transactFrom sR sC req ts now ro = (.ok resp, s₁)) :
    (∃ b₁, s₁.balances (createUserBalanceKey req.userId) = some b₁ ∧
       b₁.version = readVersion sR req.userId + 1) ∧
    (sC.balances (createUserBalanceKey req.userId) = none ∨
     ∃ b₀, sC.balances (createUserBalanceKey req.userId) = some b₀ ∧
       b₀.version = readVersion sR req.userId) ∧
    (∀ (sR₂ : Store) (req₂ : TransactRequest) (ts₂ : String) (now₂ : Nat) (ro₂ : Bool)
       (resp₂ : TransactionResponse) (s₂ : Store),
       req₂.userId = req.userId →
       validateRequest req₂ = none →
       sR₂.idems (createIdempotencyKey req₂.idempotentKey) = none →
       readVersion sR₂ req₂.userId = readVersion sR req.userId →
       transactFrom sR₂ s₁ req₂ ts₂ now₂ ro₂ ≠ (.ok resp₂, s₂)) := by
  obtain ⟨b₁, hcond, hbal, hver⟩ := transactFrom_ok_shape sR sC req ts now ro resp s₁ hv hfresh hok
  refine ⟨⟨b₁, hbal, hver⟩, hcond, ?_⟩
  intro sR₂ req₂ ts₂ now₂ ro₂ resp₂ s₂ huid hv₂ hfresh₂ hver₂ hok₂
  obtain ⟨b₂, hcond₂, -, -⟩ :=
    transactFrom_ok_shape sR₂ s₁ req₂ ts₂ now₂ ro₂ resp₂ s₂ hv₂ hfresh₂ hok₂
  rw [huid] at hcond₂ hver₂
  rw [hver₂] at hcond₂
  rcases hcond₂ with hnone | ⟨b₀, hb₀, hvb₀⟩
  · rw [hbal] at hnone
    cases hnone
  · rw [hbal] at hb₀
    injection hb₀ with hb₀
    rw [← hb₀] at hvb₀
    rw [hver] at hvb₀
    omega

/-- Concrete successful commit: crediting 25 to unseen account `u1` writes version 1 = 0 + 1. -/
theorem successful_commit_bumps_version_conditionally_witness :
    validateRequest ⟨"tok2", "u1", "25", "credit"⟩ = none ∧
    emptyStore.idems (createIdempotencyKey "tok2") = none ∧
    (transactFrom emptyStore emptyStore ⟨"tok2", "u1", "25", "credit"⟩ "t0" 0 true).1 =
      .ok (successResponse ⟨"tok2", "u1", "25", "credit"⟩ (JSNum.num 25)) ∧
    versionOf ((transactFrom emptyStore emptyStore ⟨"tok2", "u1", "25", "credit"⟩ "t0" 0 true).2.balances
      (createUserBalanceKey "u1")) = readVersion emptyStore "u1" + 1 := by
  have hv : validateRequest ⟨"tok2", "u1", "25", "credit"⟩ = none :=
    validateRequest_none_of_parts _ 25 (by decide) (by decide) (by decide) parseFloat_25
      (by norm_num) (Or.inl rfl)
  obtain ⟨s₁, hrun, hbal, hsome, hver, -, -⟩ :=
    transact_success emptyStore ⟨"tok2", "u1", "25", "credit"⟩ "t0" 0 true 25 0 hv rfl
      parseFloat_25 rfl (Or.inl rfl)
  have hnb : newBalanceFor (TransactRequest.type ⟨"tok2", "u1", "25", "credit"⟩) 0 25 = 25 := by
    norm_num [newBalanceFor]
  rw [hnb] at hrun
  have hrun' : transactFrom emptyStore emptyStore ⟨"tok2", "u1", "25", "credit"⟩ "t0" 0 true =
      (.ok (successResponse ⟨"tok2", "u1", "25", "credit"⟩ (JSNum.num 25)), s₁) := hrun
  refine ⟨hv, rfl, ?_, ?_⟩
  · rw [hrun']
  · obtain ⟨⟨b₁, hb₁, hv₁⟩, -, -⟩ :=
      successful_commit_bumps_version_conditionally emptyStore emptyStore
        ⟨"tok2", "u1", "25", "credit"⟩ "t0" 0 true _ s₁ hv rfl hrun'
    rw [hrun']
    rw [show ((Except.ok (successResponse ⟨"tok2", "u1", "25", "credit"⟩ (JSNum.num 25)),
      s₁) : Except BalanceError TransactionResponse × Store).2 = s₁ from rfl]
    rw [hb₁]
    simpa [versionOf] using hv₁

/-- Claim C3: a debit request with a fresh token whose amount exceeds the current balance
fails with InsufficientFunds carrying the account id, the current balance and the
requested amount, and the balance and ledger maps of the store are unchanged. -/
theorem insufficient_debit_fails_without_balance_writes
    (s : Store) (req : TransactRequest) (ts : String) (now : Nat) (ro : Bool) (a cb : ℚ)
    (hv : validateRequest req = none)
    (hfresh : s.idems (createIdempotencyKey req.idempotentKey) = none)
    (ha : parseFloatJS req.amount = .num a)
    (hb : readBalance s req.userId = .num cb)
    (hdebit : req.type = "debit")
    (hgt : cb < a) :
    (transact s req ts now ro).1 =
      .error (.insufficientFunds req.userId (.num cb) (.num a)) ∧
    (transact s req ts now ro).2.balances = s.balances ∧
    (transact s req ts now ro).2.transactions = s.transactions := by
  have hneg : cb - a < 0 := by linarith
  rw [transact_insufficient s req ts now ro a cb hv hfresh ha hb hdebit hneg]
  refine ⟨rfl, ?_, ?_⟩ <;> cases ro <;> rfl

/-- Concrete insufficient debit: debiting 25 from a balance of 10 fails and leaves the
balance record untouched. -/
theorem insufficient_debit_fails_without_balance_writes_witness :
    validateRequest ⟨"tok3", "u1", "25", "debit"⟩ = none ∧
    smallStore.idems (createIdempotencyKey "tok3") = none ∧
    readBalance smallStore "u1" = JSNum.num 10 ∧
    (transact smallStore ⟨"tok3", "u1", "25", "debit"⟩ "t1" 0 true).1 =
      .error (.insufficientFunds "u1" (JSNum.num 10) (JSNum.num 25)) ∧
    (transact smallStore ⟨"tok3", "u1", "25", "debit"⟩ "t1" 0 true).2.balances =
      smallStore.balances := by
  have hv : validateRequest ⟨"tok3", "u1", "25", "debit"⟩ = none :=
    validateRequest_none_of_parts _ 25 (by decide) (by decide) (by decide) parseFloat_25
      (by norm_num) (Or.inr rfl)
  have hb : readBalance smallStore "u1" = JSNum.num 10 := by
    simp [readBalance, readBalanceItem, smallStore, Store.putBalance, balanceOf, smallBalance]
  obtain ⟨h₁, h₂, -⟩ :=
    insufficient_debit_fails_without_balance_writes smallStore ⟨"tok3", "u1", "25", "debit"⟩
      "t1" 0 true 25 10 hv rfl parseFloat_25 hb rfl (by norm_num)
  exact ⟨hv, rfl, hb, h₁, h₂⟩

/-- Claim C5: when the commit-time store's balance record for the account carries a version
different from the one read (a concurrent writer advanced it between read and commit), the
atomic batch applies no balance or ledger writes and `transact` raises RaceCondition
carrying the account id; the engine returns the error rather than retrying. -/
theorem conditional_check_failure_raises_race_condition_without_writes
    (sR sC : Store) (req : TransactRequest) (ts : String) (now : Nat) (ro : Bool)
    (b₀ : BalanceItem)
    (hv : validateRequest req = none)
    (hfresh : sR.idems (createIdempotencyKey req.idempotentKey) = none)
    (hb : sC.balances (createUserBalanceKey req.userId) = some b₀)
    (hne : b₀.version ≠ readVersion sR req.userId)
    (hreach : req.type = "credit" ∨
      ((readBalance sR req.userId).sub (parseFloatJS req.amount)).lt (JSNum.num 0) = false) :
    (transactFrom sR sC req ts now ro).1 = .error (.raceCondition req.userId) ∧
    (transactFrom sR sC req ts now ro).2.balances = sC.balances ∧
    (transactFrom sR sC req ts now ro).2.transactions = sC.transactions := by
  rw [transactFrom_race sR sC req ts now ro b₀ hv hfresh hb hne hreach]
  refine ⟨rfl, ?_, ?_⟩ <;> cases ro <;> rfl

/-- Concrete race: reading `u1` at version 0 but committing against a store already at
version 1 rejects the batch with RaceCondition and leaves the balance record untouched. -/
theorem conditional_check_failure_raises_race_condition_without_writes_witness :
    validateRequest ⟨"tok5", "u1", "25", "credit"⟩ = none ∧
    emptyStore.idems (createIdempotencyKey "tok5") = none ∧
    smallStore.balances (createUserBalanceKey "u1") = some smallBalance ∧
    smallBalance.version ≠ readVersion emptyStore "u1" ∧
    (transactFrom emptyStore smallStore ⟨"tok5", "u1", "25", "credit"⟩ "t1" 0 true).1 =
      .error (.raceCondition "u1") ∧
    (transactFrom emptyStore smallStore ⟨"tok5", "u1", "25", "credit"⟩ "t1" 0 true).2.balances =
      smallStore.balances := by
  have hv : validateRequest ⟨"tok5", "u1", "25", "credit"⟩ = none :=
    validateRequest_none_of_parts _ 25 (by decide) (by decide) (by decide) parseFloat_25
      (by norm_num) (Or.inl rfl)
  have hb : smallStore.balances (createUserBalanceKey "u1") = some smallBalance := by
    simp [smallStore, Store.putBalance]
  have hne : smallBalance.version ≠ readVersion emptyStore "u1" := by decide
  obtain ⟨h₁, h₂, -⟩ :=
    conditional_check_failure_raises_race_condition_without_writes emptyStore smallStore
      ⟨"tok5", "u1", "25", "credit"⟩ "t1" 0 true smallBalance hv rfl hb hne (Or.inl rfl)
  exact ⟨hv, rfl, hb, hne, h₁, h₂⟩

/-- Claim C6 is refuted by this counterexample: the amount string `Infinity` is not a
positive finite decimal, yet validation accepts it — `parseFloat` yields Infinity, which is
neither NaN nor ≤ 0 — and `transact` proceeds past validation to the store operations,
committing a balance of Infinity instead of failing with InvalidAmount. -/
theorem infinity_amount_accepted_counterexample :
    validateRequest ⟨"tokInf", "u1", "Infinity", "credit"⟩ = none ∧
    (transact emptyStore ⟨"tokInf", "u1", "Infinity", "credit"⟩ "t0" 0 true).1 =
      .ok (successResponse ⟨"tokInf", "u1", "Infinity", "credit"⟩ JSNum.posInf) ∧
    readBalance (transact emptyStore ⟨"tokInf", "u1", "Infinity", "credit"⟩ "t0" 0 true).2
      "u1" = JSNum.posInf := by
  have hInf : parseFloatJS "Infinity" = JSNum.posInf := by
    rw [parseFloatJS, show parseShape "Infinity" = ParseShape.inf false from by decide]
    rfl
  have hv : validateRequest ⟨"tokInf", "u1", "Infinity", "credit"⟩ = none := by
    rw [validateRequest_none_iff]
    refine ⟨by decide, by decide, by decide, ?_, ?_, Or.inl rfl⟩
    · show (parseFloatJS "Infinity").isNaN = false
      rw [hInf]
      rfl
    · show (parseFloatJS "Infinity").le (JSNum.num 0) = false
      rw [hInf]
      rfl
  obtain ⟨s₁, hrun, hsome, hbal, hver, hfb, hft, hfi⟩ :=
    commitPhase_seq emptyStore ⟨"tokInf", "u1", "Infinity", "credit"⟩ JSNum.posInf
      JSNum.posInf "t0" 0
  have hrun' : transactCommitPhase emptyStore ⟨"tokInf", "u1", "Infinity", "credit"⟩
      JSNum.posInf JSNum.posInf (emptyStore.balances (createUserBalanceKey "u1")) "t0" 0 =
      .ok (s₁, successResponse ⟨"tokInf", "u1", "Infinity", "credit"⟩ JSNum.posInf) := hrun
  have hrunFull : transact emptyStore ⟨"tokInf", "u1", "Infinity", "credit"⟩ "t0" 0 true =
      (.ok (successResponse ⟨"tokInf", "u1", "Infinity", "credit"⟩ JSNum.posInf), s₁) := by
    unfold transact transactFrom
    rw [hv]
    unfold transactTry
    dsimp only
    rw [hInf]
    rw [show emptyStore.idems (createIdempotencyKey "tokInf") =
      (none : Option IdempotencyItem) from rfl]
    dsimp only
    rw [if_pos rfl]
    rw [show (balanceOf (emptyStore.balances (createUserBalanceKey "u1"))).add JSNum.posInf =
      JSNum.posInf from rfl]
    rw [hrun']
  refine ⟨hv, ?_, ?_⟩
  · rw [hrunFull]
  · rw [hrunFull]
    exact hbal

/-- Claim C6 amended: a request whose amount string trims to empty, or whose parsed value
is NaN or ≤ 0 (zero, negatives, `-Infinity`, plain non-numeric strings), is rejected with
InvalidAmount before any store operation, the store coming back unchanged; however strings
whose `parseFloat` prefix-parse yields +Infinity (such as `Infinity`) — and any string
with a valid positive numeric prefix — are accepted rather than rejected. -/
theorem nonpositive_or_nan_amount_rejected_before_store
    (sR sC : Store) (req : TransactRequest) (ts : String) (now : Nat) (ro : Bool)
    (hk : jsTrim req.idempotentKey ≠ "") (hu : jsTrim req.userId ≠ "")
    (hbad : jsTrim req.amount = "" ∨ (parseFloatJS req.amount).isNaN = true ∨
      (parseFloatJS req.amount).le (JSNum.num 0) = true) :
    transactFrom sR sC req ts now ro = (.error (.invalidAmount req.amount), sC) := by
  have hv : validateRequest req = some (.invalidAmount req.amount) := by
    unfold validateRequest
    rw [if_neg hk, if_neg hu]
    by_cases hs : jsTrim req.amount = ""
    · rw [if_pos hs]
    · rw [if_neg hs]
      rcases hbad with h | h | h
      · exact absurd h hs
      · rw [if_pos (by rw [h]; simp)]
      · rw [if_pos (by rw [h]; simp)]
  unfold transactFrom
  rw [hv]

/-- Concrete rejected amount: `-5` parses negative, so the request fails with
InvalidAmount and the store is untouched. -/
theorem nonpositive_or_nan_amount_rejected_before_store_witness :
    jsTrim "kX" ≠ "" ∧ jsTrim "u1" ≠ "" ∧
    (parseFloatJS "-5").le (JSNum.num 0) = true ∧
    transactFrom emptyStore emptyStore ⟨"kX", "u1", "-5", "credit"⟩ "t0" 0 true =
      (.error (.invalidAmount "-5"), emptyStore) := by
  have hm : parseFloatJS "-5" = .num (-5) := by
    refine parseFloatJS_fin "-5" true [ '5'] [] 0 (-5) (by decide) ?_
    have h1 : digitsVal [ '5'] = 5 := by decide
    have h2 : digitsVal ([] : List Char) = 0 := by decide
    rw [h1, h2]
    norm_num [expFactor]
  have hle : (parseFloatJS "-5").le (JSNum.num 0) = true := by
    rw [hm]
    show decide ((-5 : ℚ) ≤ 0) = true
    exact decide_eq_true (by norm_num)
  refine ⟨by decide, by decide, hle, ?_⟩
  exact nonpositive_or_nan_amount_rejected_before_store emptyStore emptyStore
    ⟨"kX", "u1", "-5", "credit"⟩ "t0" 0 true (by decide) (by decide) (Or.inr (Or.inr hle))

/-- Claim C7: (a) every failure arising after successful input validation leads the catch
handler to write an IdempotencyRecord with status `failed` and resulting balance 0 under
the request's token; (b) when that best-effort write itself fails, the failure is
swallowed — the same original error is returned and the store is unchanged; (c) input
validation errors are thrown before the try block, so they never produce such a record and
leave the store fully unchanged. -/
theorem nonvalidation_failures_record_failed_idempotency_best_effort
    (sR sC : Store) (req : TransactRequest) (ts : String) (now : Nat) :
    (∀ e s₁, validateRequest req = none →
      transactFrom sR sC req ts now true = (.error e, s₁) →
      s₁.idems (createIdempotencyKey req.idempotentKey) =
        some (failedIdempotencyItem req ts now) ∧
      (failedIdempotencyItem req ts now).status = "failed" ∧
      (failedIdempotencyItem req ts now).newBalance = JSNum.num 0) ∧
    (∀ e s₁, transactFrom sR sC req ts now true = (.error e, s₁) →
      (transactFrom sR sC req ts now false).1 = .error e ∧
      (transactFrom sR sC req ts now false).2 = sC) ∧
    (∀ e, validateRequest req = some e →
      transactFrom sR sC req ts now true = (.error e, sC)) := by
  refine ⟨?_, ?_, ?_⟩
  · intro e s₁ hv h
    unfold transactFrom at h
    rw [hv] at h
    cases htry : transactTry sR sC req ts now with
    | ok p =>
      obtain ⟨s₂, resp₂⟩ := p
      rw [htry] at h
      dsimp only at h
      rw [Prod.mk.injEq] at h
      obtain ⟨hbad, -⟩ := h
      cases hbad
    | error e₂ =>
      rw [htry] at h
      dsimp only at h
      have hrec := transactTry_error_shape _ _ _ _ _ _ htry
      rw [hrec] at h
      simp only [Bool.and_self, if_true] at h
      rw [Prod.mk.injEq] at h
      obtain ⟨-, hs⟩ := h
      refine ⟨?_, rfl, rfl⟩
      rw [← hs]
      simp [Store.putIdem]
  · intro e s₁ h
    unfold transactFrom at h ⊢
    cases hval : validateRequest req with
    | some e₀ =>
      rw [hval] at h
      dsimp only at h ⊢
      rw [Prod.mk.injEq] at h
      obtain ⟨he, -⟩ := h
      exact ⟨he, rfl⟩
    | none =>
      rw [hval] at h
      cases htry : transactTry sR sC req ts now with
      | ok p =>
        obtain ⟨s₂, resp₂⟩ := p
        rw [htry] at h
        dsimp only at h
        rw [Prod.mk.injEq] at h
        obtain ⟨hbad, -⟩ := h
        cases hbad
      | error e₂ =>
        rw [htry] at h
        dsimp only at h ⊢
        rw [Prod.mk.injEq] at h
        obtain ⟨he, -⟩ := h
        exact ⟨he, by simp⟩
  · intro e hv
    unfold transactFrom
    rw [hv]

/-- Concrete failure recording: the insufficient-funds failure of a debit of 25 against a
balance of 10 writes a failed IdempotencyRecord with balance 0 under the same token. -/
theorem nonvalidation_failures_record_failed_idempotency_best_effort_witness :
    validateRequest ⟨"tok7", "u1", "25", "debit"⟩ = none ∧
    transactFrom smallStore smallStore ⟨"tok7", "u1", "25", "debit"⟩ "t1" 0 true =
      (.error (.insufficientFunds "u1" (JSNum.num 10) (JSNum.num 25)),
       smallStore.putIdem (createIdempotencyKey "tok7")
         (failedIdempotencyItem ⟨"tok7", "u1", "25", "debit"⟩ "t1" 0)) ∧
    (smallStore.putIdem (createIdempotencyKey "tok7")
        (failedIdempotencyItem ⟨"tok7", "u1", "25", "debit"⟩ "t1" 0)).idems
      (createIdempotencyKey "tok7") =
      some (failedIdempotencyItem ⟨"tok7", "u1", "25", "debit"⟩ "t1" 0) := by
  have hv : validateRequest ⟨"tok7", "u1", "25", "debit"⟩ = none :=
    validateRequest_none_of_parts _ 25 (by decide) (by decide) (by decide) parseFloat_25
      (by norm_num) (Or.inr rfl)
  have hb : readBalance smallStore "u1" = JSNum.num 10 := by
    simp [readBalance, readBalanceItem, smallStore, Store.putBalance, balanceOf, smallBalance]
  have hrun := transact_insufficient smallStore ⟨"tok7", "u1", "25", "debit"⟩ "t1" 0 true
    25 10 hv rfl parseFloat_25 hb rfl (by norm_num)
  rw [if_pos rfl] at hrun
  refine ⟨hv, hrun, ?_⟩
  obtain ⟨h₁, -, -⟩ :=
    (nonvalidation_failures_record_failed_idempotency_best_effort smallStore smallStore
      ⟨"tok7", "u1", "25", "debit"⟩ "t1" 0).1 _ _ hv hrun
  exact h₁

/-- Equation form of `getCurrentBalance`, shared between the balance-reader claims. -/
lemma getCurrentBalance_spec (s : Store) (u : String) :
    getCurrentBalance s u =
      if jsTrim u = "" then
        .error (.base "Invalid userId: must be a non-empty string" "INVALID_USER_ID")
      else .ok ⟨u, readBalance s u⟩ := by
  unfold getCurrentBalance
  split_ifs with h
  · rfl
  · cases hb : s.balances (createUserBalanceKey u) <;>
      simp [readBalance, readBalanceItem, balanceOf, hb]

/-- Claim C9: for an account id that is non-empty after trimming, `getCurrentBalance`
returns the id together with the stored balance, or 0 when no balance record exists; for
an id empty after trimming it fails with the invalid-user error; the function only reads
the store (its type returns no store, so it can write nothing). -/
theorem get_balance_reads_stored_or_zero (s : Store) (u : String) :
    getCurrentBalance s u =
      if jsTrim u = "" then
        .error (.base "Invalid userId: must be a non-empty string" "INVALID_USER_ID")
      else .ok ⟨u, readBalance s u⟩ :=
  getCurrentBalance_spec s u

/-- Claim C10: account ids are used verbatim when keys are built: distinct ids — even ids
differing only in surrounding whitespace — yield distinct balance keys, so a write to one
account's key never affects the other's record; and both the balance reader and the
transaction validator accept an id that is non-empty after trimming, addressing the store
at the raw, untrimmed id. -/
theorem account_ids_used_verbatim_in_keys (u₁ u₂ : String) (h : u₁ ≠ u₂) :
    createUserBalanceKey u₁ ≠ createUserBalanceKey u₂ ∧
    (∀ (s : Store) (b : BalanceItem),
      (s.putBalance (createUserBalanceKey u₁) b).balances (createUserBalanceKey u₂) =
        s.balances (createUserBalanceKey u₂)) ∧
    (jsTrim u₁ ≠ "" → ∀ s : Store, getCurrentBalance s u₁ = .ok ⟨u₁, readBalance s u₁⟩) ∧
    (jsTrim u₁ ≠ "" → validateRequest ⟨"k", u₁, "25", "credit"⟩ = none) := by
  refine ⟨?_, ?_, ?_, ?_⟩
  · intro hk
    exact h (createUserBalanceKey_inj hk)
  · intro s b
    have hk : createUserBalanceKey u₂ ≠ createUserBalanceKey u₁ :=
      fun hk => h (createUserBalanceKey_inj hk).symm
    simp [Store.putBalance, hk]
  · intro hu s
    rw [getCurrentBalance_spec, if_neg hu]
  · intro hu
    exact validateRequest_none_of_parts _ 25 (by decide : jsTrim "k" ≠ "") hu
      (by decide : jsTrim "25" ≠ "") parseFloat_25 (by norm_num) (Or.inl rfl)

/-- Concrete verbatim ids: ` u1 ` (with spaces) and `u1` denote different keys with
independent records, and the whitespace-padded id is accepted by both operations. -/
theorem account_ids_used_verbatim_in_keys_witness :
    (" u1 " : String) ≠ "u1" ∧
    createUserBalanceKey " u1 " ≠ createUserBalanceKey "u1" ∧
    (emptyStore.putBalance (createUserBalanceKey " u1 ") smallBalance).balances
      (createUserBalanceKey "u1") = emptyStore.balances (createUserBalanceKey "u1") ∧
    getCurrentBalance emptyStore " u1 " = .ok ⟨" u1 ", JSNum.num 0⟩ ∧
    validateRequest ⟨"k", " u1 ", "25", "credit"⟩ = none := by
  have h : (" u1 " : String) ≠ "u1" := by decide
  obtain ⟨h₁, h₂, h₃, h₄⟩ := account_ids_used_verbatim_in_keys " u1 " "u1" h
  exact ⟨h, h₁, h₂ emptyStore smallBalance, h₃ (by decide) emptyStore, h₄ (by decide)⟩

lemma createIdempotencyKey_inj {t₁ t₂ : String}
    (h : createIdempotencyKey t₁ = createIdempotencyKey t₂) : t₁ = t₂ := by
  unfold createIdempotencyKey at h
  rw [DKey.mk.injEq] at h
  exact string_append_left_cancel h.1

lemma freshTokens_update (s s' : Store) (t₀ : String) (reqs : List TransactRequest)
    (hfr : freshTokens s reqs)
    (hdiff : ∀ k, k ≠ createIdempotencyKey t₀ → s'.idems k = s.idems k)
    (hnot : ∀ r ∈ reqs, r.idempotentKey ≠ t₀) :
    freshTokens s' reqs := by
  induction reqs with
  | nil => trivial
  | cons r rest ih =>
    obtain ⟨h1, h2, h3⟩ := hfr
    refine ⟨?_, h2, ih h3 (fun x hx => hnot x (List.mem_cons_of_mem _ hx))⟩
    rw [hdiff _ ?_]
    · exact h1
    · intro hk
      exact hnot r (List.mem_cons_self r rest) (createIdempotencyKey_inj hk)

lemma transact_ok_newBalance (s' : Store) (r : TransactRequest) (ts : String) (now : Nat)
    (ro : Bool) (a cb : ℚ) (resp : TransactionResponse) (s₂ : Store)
    (hv : validateRequest r = none)
    (hfr : s'.idems (createIdempotencyKey r.idempotentKey) = none)
    (ha : parseFloatJS r.amount = .num a)
    (hb : readBalance s' r.userId = .num cb)
    (hok : transact s' r ts now ro = (.ok resp, s₂)) :
    resp.newBalance = .num (if r.type = "credit" then cb + a else cb - a) ∧
    readBalance s₂ r.userId = .num (if r.type = "credit" then cb + a else cb - a) := by
  by_cases hneg : ¬(r.type = "credit") ∧ cb - a < 0
  · obtain ⟨hnc, hlt⟩ := hneg
    have hdeb : r.type = "debit" := by
      rcases ((validateRequest_none_iff r).mp hv).2.2.2.2.2 with hc | hd
      · exact absurd hc hnc
      · exact hd
    have hrun := transact_insufficient s' r ts now ro a cb hv hfr ha hb hdeb hlt
    rw [hrun] at hok
    rw [Prod.mk.injEq] at hok
    obtain ⟨hbad, -⟩ := hok
    cases hbad
  · have hpos : r.type = "credit" ∨ ¬(cb - a < 0) := by
      by_cases hc : r.type = "credit"
      · exact Or.inl hc
      · exact Or.inr (fun hlt => hneg ⟨hc, hlt⟩)
    obtain ⟨s₁, hrun, hbal₁, -, -, -, -⟩ := transact_success s' r ts now ro a cb hv hfr ha hb hpos
    rw [hrun] at hok
    rw [Prod.mk.injEq] at hok
    obtain ⟨hresp, hs⟩ := hok
    injection hresp with hresp
    constructor
    · rw [← hresp]
      rfl
    · rw [← hs]
      exact hbal₁

lemma runSeq_final_balance (ts : String) (now : Nat) (ro : Bool) (uid : String)
    (reqs : List TransactRequest) :
    ∀ (s : Store) (B₀ : ℚ), readBalance s uid = .num B₀ →
      validSeqFor uid reqs → freshTokens s reqs →
      readBalance (runSeq ts now ro s reqs).1 uid =
        .num (B₀ + netChange reqs (runSeq ts now ro s reqs).2) := by
  induction reqs with
  | nil =>
    intro s B₀ hbal _ _
    simpa [runSeq, netChange] using hbal
  | cons r rest ih =>
    intro s B₀ hbal hvalid hfresh
    obtain ⟨hv, huid, a, ha⟩ := hvalid r (List.mem_cons_self r rest)
    obtain ⟨hfr, hdist, hfrest⟩ := hfresh
    have hvalid' : validSeqFor uid rest := fun x hx => hvalid x (List.mem_cons_of_mem r hx)
    have hbal' : readBalance s r.userId = .num B₀ := by
      rw [huid]
      exact hbal
    by_cases hneg : ¬(r.type = "credit") ∧ B₀ - a < 0
    · -- insufficient funds: failed step, no balance change, contribution 0
      obtain ⟨hnc, hlt⟩ := hneg
      have hdeb : r.type = "debit" := by
        rcases ((validateRequest_none_iff r).mp hv).2.2.2.2.2 with hc | hd
        · exact absurd hc hnc
        · exact hd
      have hrun := transact_insufficient s r ts now ro a B₀ hv hfr ha hbal' hdeb hlt
      have hstep : runSeq ts now ro s (r :: rest) =
          ((runSeq ts now ro (transact s r ts now ro).2 rest).1,
           (transact s r ts now ro).1 ::
             (runSeq ts now ro (transact s r ts now ro).2 rest).2) := rfl
      rw [hstep, hrun]
      dsimp only
      have hsF : readBalance (if ro then s.putIdem (createIdempotencyKey r.idempotentKey)
          (failedIdempotencyItem r ts now) else s) uid = .num B₀ := by
        cases ro
        · exact hbal
        · exact hbal
      have hfresh' : freshTokens (if ro then s.putIdem (createIdempotencyKey r.idempotentKey)
          (failedIdempotencyItem r ts now) else s) rest := by
        refine freshTokens_update s _ r.idempotentKey rest hfrest ?_ hdist
        intro k hk
        cases ro
        · rfl
        · simp [Store.putIdem, hk]
      have := ih _ B₀ hsF hvalid' hfresh'
      rw [this]
      rw [netChange]
      ring_nf
    · -- successful step: balance moves by ±a, contribution ±a
      have hpos : r.type = "credit" ∨ ¬(B₀ - a < 0) := by
        by_cases hc : r.type = "credit"
        · exact Or.inl hc
        · exact Or.inr (fun hlt => hneg ⟨hc, hlt⟩)
      obtain ⟨s₁, hrun, hbal₁, -, -, -, hfi⟩ :=
        transact_success s r ts now ro a B₀ hv hfr ha hbal' hpos
      have hstep : runSeq ts now ro s (r :: rest) =
          ((runSeq ts now ro (transact s r ts now ro).2 rest).1,
           (transact s r ts now ro).1 ::
             (runSeq ts now ro (transact s r ts now ro).2 rest).2) := rfl
      rw [hstep, hrun]
      dsimp only
      have hbal₁' : readBalance s₁ uid = .num (newBalanceFor r.type B₀ a) := by
        rw [← huid]
        exact hbal₁
      have hfresh' : freshTokens s₁ rest :=
        freshTokens_update s s₁ r.idempotentKey rest hfrest hfi hdist
      have := ih s₁ (newBalanceFor r.type B₀ a) hbal₁' hvalid' hfresh'
      rw [this]
      rw [netChange]
      rw [ha]
      by_cases hc : r.type = "credit"
      · rw [if_pos hc]
        simp only [newBalanceFor, if_pos hc, JSNum.toQ, JSNum.num.injEq]
        ring
      · rw [if_neg hc]
        simp only [newBalanceFor, if_neg hc, JSNum.toQ, JSNum.num.injEq]
        ring

/-- Claim C4: running any valid sequence of requests with fresh, pairwise-distinct tokens
against one account takes the balance from B₀ to B₀ plus the net of exactly the operations
that reported success (credits positive, debits negative); and each individual successful
operation computes new_balance = current_balance + amount for a credit and
current_balance - amount for a debit, returns it, and stores it as the new balance. -/
theorem final_balance_is_initial_plus_net_of_successes
    (ts : String) (now : Nat) (ro : Bool) (uid : String) (B₀ : ℚ)
    (reqs : List TransactRequest) (s : Store)
    (hbal : readBalance s uid = .num B₀)
    (hvalid : validSeqFor uid reqs)
    (hfresh : freshTokens s reqs) :
    readBalance (runSeq ts now ro s reqs).1 uid =
      .num (B₀ + netChange reqs (runSeq ts now ro s reqs).2) ∧
    (∀ (s' : Store) (r : TransactRequest) (a cb : ℚ) (resp : TransactionResponse)
       (s₂ : Store),
      validateRequest r = none →
      s'.idems (createIdempotencyKey r.idempotentKey) = none →
      parseFloatJS r.amount = .num a →
      readBalance s' r.userId = .num cb →
      transact s' r ts now ro = (.ok resp, s₂) →
      resp.newBalance = .num (if r.type = "credit" then cb + a else cb - a) ∧
      readBalance s₂ r.userId = .num (if r.type = "credit" then cb + a else cb - a)) :=
  ⟨runSeq_final_balance ts now ro uid reqs s B₀ hbal hvalid hfresh,
   fun s' r a cb resp s₂ hv hfr ha hb hok =>
     transact_ok_newBalance s' r ts now ro a cb resp s₂ hv hfr ha hb hok⟩

/-- Concrete sequence: a credit of 25 and then a debit of 25 on account `u1`, from an
empty store, end at 0 + net of the successful operations. -/
theorem final_balance_is_initial_plus_net_of_successes_witness :
    readBalance emptyStore "u1" = JSNum.num 0 ∧
    validSeqFor "u1" [⟨"t41", "u1", "25", "credit"⟩, ⟨"t42", "u1", "25", "debit"⟩] ∧
    freshTokens emptyStore [⟨"t41", "u1", "25", "credit"⟩, ⟨"t42", "u1", "25", "debit"⟩] ∧
    readBalance (runSeq "t0" 0 true emptyStore
        [⟨"t41", "u1", "25", "credit"⟩, ⟨"t42", "u1", "25", "debit"⟩]).1 "u1" =
      .num (0 + netChange [⟨"t41", "u1", "25", "credit"⟩, ⟨"t42", "u1", "25", "debit"⟩]
        (runSeq "t0" 0 true emptyStore
          [⟨"t41", "u1", "25", "credit"⟩, ⟨"t42", "u1", "25", "debit"⟩]).2) := by
  have hv₁ : validateRequest ⟨"t41", "u1", "25", "credit"⟩ = none :=
    validateRequest_none_of_parts _ 25 (by decide) (by decide) (by decide) parseFloat_25
      (by norm_num) (Or.inl rfl)
  have hv₂ : validateRequest ⟨"t42", "u1", "25", "debit"⟩ = none :=
    validateRequest_none_of_parts _ 25 (by decide) (by decide) (by decide) parseFloat_25
      (by norm_num) (Or.inr rfl)
  have hvalid : validSeqFor "u1" [⟨"t41", "u1", "25", "credit"⟩, ⟨"t42", "u1", "25", "debit"⟩] := by
    intro r hr
    rcases List.mem_cons.mp hr with rfl | hr₂
    · exact ⟨hv₁, rfl, 25, parseFloat_25⟩
    rcases List.mem_cons.mp hr₂ with rfl | hr₃
    · exact ⟨hv₂, rfl, 25, parseFloat_25⟩
    · cases hr₃
  have hfresh : freshTokens emptyStore
      [⟨"t41", "u1", "25", "credit"⟩, ⟨"t42", "u1", "25", "debit"⟩] := by
    refine ⟨rfl, ?_, rfl, ?_, trivial⟩
    · intro x hx
      rcases List.mem_cons.mp hx with rfl | hx₂
      · decide
      · cases hx₂
    · intro x hx
      cases hx
  refine ⟨rfl, hvalid, hfresh, ?_⟩
  exact (final_balance_is_initial_plus_net_of_successes "t0" 0 true "u1" 0 _ emptyStore
    rfl hvalid hfresh).1

end JacksClub
